import Mathlib

set_option maxHeartbeats 1600000

/-!
Shallow embedding of `super_hydro/server/gpe.py`: the `Dispersion`
band-structure model and the `State` split-step GPE evolution engine.

Machine floats are modelled by exact real numbers; complex numpy arrays over
the `(Nx, Ny)` grid are functions `Fin Nx → Fin Ny → ℂ`.  The FFT pair
(`np.fft.fftn` / `np.fft.ifftn`) is an external collaborator (spec §6) and is
modelled as a pair of state fields, constrained in theorems by the contracts
of spec §6.  The `numexpr` fast path evaluates the same expressions as the
plain branch, so only one definition is given per propagator.
-/

namespace SuperHydro

noncomputable section

/-- Python float `%` (the result has the sign of the divisor; for `L > 0` the
result lies in `[0, L)`): `x % L = x - L * ⌊x / L⌋`. -/
def pymod (x L : ℝ) : ℝ := x - L * ⌊x / L⌋

/-- `numpy.round`: round to nearest integer, half to even. -/
def npround (x : ℝ) : ℤ :=
  if Int.fract x = 1/2 then (if Even ⌊x⌋ then ⌊x⌋ else ⌊x⌋ + 1) else round x

/-- `Dispersion` (gpe.py 18-68): tools for the lower-band dispersion, in
dimensionless units; two immutable parameters. -/
structure Dispersion where
  d : ℝ
  w : ℝ

/-- `Dispersion.Es` (gpe.py 44-55): band energy pair (lower, upper) or its
derivative of order `deriv`; raises `NotImplementedError` for any other
derivative order, modelled by `Except.error`. -/
def Dispersion.Es (P : Dispersion) (k : ℝ) (deriv : ℕ) : Except String (ℝ × ℝ) :=
  let D := Real.sqrt ((k - P.d)^2 + P.w^2)
  if deriv = 0 then Except.ok ((k^2 + 1)/2 - D, (k^2 + 1)/2 + D)
  else if deriv = 1 then Except.ok (k - (k - P.d)/D, k + (k - P.d)/D)
  else if deriv = 2 then Except.ok (1 - P.w^2/D^3, 1 + P.w^2/D^3)
  else Except.error "Only d=0, 1, or 2 supported."

/-- `Dispersion.newton` (gpe.py 59-60): one Newton step on the lower branch,
`k - Es(k,1)[0] / Es(k,2)[0]`.  The fallback branch is unreachable because
derivative orders 1 and 2 always succeed. -/
def Dispersion.newton (P : Dispersion) (k : ℝ) : ℝ :=
  match P.Es k 1, P.Es k 2 with
  | Except.ok E1, Except.ok E2 => k - E1.1 / E2.1
  | _, _ => 0

/-- `Dispersion.get_k0` (gpe.py 62-68): `N` Newton iterations from the seed
`-sign(d)/2` (the Python default is `N=5`; no convergence check). -/
def Dispersion.get_k0 (P : Dispersion) (N : ℕ) : ℝ :=
  P.newton^[N] (-Real.sign P.d / 2)

/-- C3: for every momentum `k` and parameters `d`, `w`, with
`D = sqrt((k-d)² + w²)`, `Dispersion.Es` returns `((k²+1)/2 - D, (k²+1)/2 + D)`
at derivative order 0, `(k - (k-d)/D, k + (k-d)/D)` at order 1, and
`(1 - w²/D³, 1 + w²/D³)` at order 2. -/
theorem C3_Es_formulas (d w k : ℝ) :
    (Dispersion.mk d w).Es k 0 =
      Except.ok ((k^2 + 1)/2 - Real.sqrt ((k - d)^2 + w^2),
                 (k^2 + 1)/2 + Real.sqrt ((k - d)^2 + w^2)) ∧
    (Dispersion.mk d w).Es k 1 =
      Except.ok (k - (k - d)/Real.sqrt ((k - d)^2 + w^2),
                 k + (k - d)/Real.sqrt ((k - d)^2 + w^2)) ∧
    (Dispersion.mk d w).Es k 2 =
      Except.ok (1 - w^2/(Real.sqrt ((k - d)^2 + w^2))^3,
                 1 + w^2/(Real.sqrt ((k - d)^2 + w^2))^3) :=
  ⟨rfl, rfl, rfl⟩

/-- C4: `Dispersion.Es` returns normally exactly for derivative orders 0, 1, 2
and fails with the unsupported-derivative error for every other order.  The
failure is synchronous and, `Es` being a pure function of an immutable
structure, no state is changed. -/
theorem C4_Es_error_iff (d w k : ℝ) (deriv : ℕ) :
    ((∃ v, (Dispersion.mk d w).Es k deriv = Except.ok v) ↔
      (deriv = 0 ∨ deriv = 1 ∨ deriv = 2)) ∧
    (¬(deriv = 0 ∨ deriv = 1 ∨ deriv = 2) →
      (Dispersion.mk d w).Es k deriv = Except.error "Only d=0, 1, or 2 supported.") := by
  unfold Dispersion.Es
  rcases deriv with _ | _ | _ | n <;> simp

/-- Witness for C4: at order 3 the call fails with the unsupported-derivative
error; at order 0 it returns normally. -/
theorem C4_Es_error_iff_witness :
    (Dispersion.mk 1 1).Es 1 3 = Except.error "Only d=0, 1, or 2 supported." ∧
    ∃ v, (Dispersion.mk 1 1).Es 1 0 = Except.ok v :=
  ⟨(C4_Es_error_iff 1 1 1 3).2 (by decide),
   (C4_Es_error_iff 1 1 1 0).1.mpr (Or.inl rfl)⟩

/-- `State` (gpe.py 71-356): the split-step GPE simulation state over an
`Nx × Ny` grid.  Fields mirror the instance attributes assigned in `__init__`
(gpe.py 80-162); `N_` mirrors `self._N`, `z_finger_` mirrors `self._z_finger`,
`V_trap` mirrors `self._V_trap`.  `fft`/`ifft` hold the externally supplied
spectral-transform collaborators (`np.fft.fftn`/`ifftn`). -/
structure State (Nx Ny : ℕ) where
  g : ℝ
  hbar : ℝ
  m : ℝ
  r0 : ℝ
  V0_mu : ℝ
  dx : ℝ
  Lx : ℝ
  Ly : ℝ
  healing_length : ℝ
  cooling_phase : ℂ
  xy : (Fin Nx → ℝ) × (Fin Ny → ℝ)
  kxy : (Fin Nx → ℝ) × (Fin Ny → ℝ)
  K : Fin Nx → Fin Ny → ℝ
  n0 : ℝ
  mu : ℝ
  data : Fin Nx → Fin Ny → ℂ
  cylinder : Bool
  V_trap : Fin Nx → Fin Ny → ℝ
  fft : (Fin Nx → Fin Ny → ℂ) → (Fin Nx → Fin Ny → ℂ)
  ifft : (Fin Nx → Fin Ny → ℂ) → (Fin Nx → Fin Ny → ℂ)
  N_ : ℝ
  test_finger : Bool
  z_finger_ : ℂ
  pot_k_m : ℝ
  pot_z : ℂ
  pot_v : ℂ
  pot_damp : ℝ
  t : ℝ
  dt : ℝ
  v_trace : Fin Nx → Fin Ny → ℂ
  par_pos : List ℂ

/-- Total model of numpy integer indexing `A[ix, iy]` with plain (already
`astype(int)`-converted) indices; an out-of-bounds pair, which raises
`IndexError` in numpy, is mapped to `0`. -/
def index2 {Nx Ny : ℕ} (A : Fin Nx → Fin Ny → ℂ) (ij : ℤ × ℤ) : ℂ :=
  if h : 0 ≤ ij.1 ∧ ij.1 < Nx ∧ 0 ≤ ij.2 ∧ ij.2 < Ny then
    A ⟨ij.1.toNat, by omega⟩ ⟨ij.2.toNat, by omega⟩
  else 0

namespace State

variable {Nx Ny : ℕ}

/-- `State._phase` (gpe.py 165-167). -/
def phase_ (s : State Nx Ny) : ℂ := -Complex.I / (s.hbar : ℂ) / s.cooling_phase

/-- `State.get_density` (gpe.py 174-176): `(y.conj() * y).real`. -/
def get_density (s : State Nx Ny) : Fin Nx → Fin Ny → ℝ :=
  fun i j => ((starRingEnd ℂ) (s.data i j) * s.data i j).re

/-- The summed density `get_density().sum()`. -/
def density_sum (s : State Nx Ny) : ℝ := ∑ i, ∑ j, s.get_density i j

/-- `State.get_v_max` (gpe.py 169-172): `1.0*np.sqrt(g*density.mean()/m)`. -/
def get_v_max (s : State Nx Ny) (density : Fin Nx → Fin Ny → ℝ) : ℝ :=
  1.0 * Real.sqrt (s.g * ((∑ i, ∑ j, density i j) / (Nx * Ny)) / s.m)

/-- `State.z_finger` property getter (gpe.py 185-193): the test-mode circular
trajectory, else the externally set target `self._z_finger`. -/
def z_finger (s : State Nx Ny) : ℂ :=
  if s.test_finger then
    (if s.t ≥ 0 then 3 * Complex.exp (Complex.I * (s.t : ℂ) / 5) else 3)
  else s.z_finger_

/-- `State.get_inds` (gpe.py 217-229) for a single particle position.  Both
components are reduced modulo `Nx` — the source's second component reads
`... % Nx`, not `% Ny`. -/
def get_inds (s : State Nx Ny) (pos : ℂ) : ℤ × ℤ :=
  let p := pos + ((s.Lx : ℂ) + Complex.I * (s.Ly : ℂ)) / 2
  (npround (p.re / s.Lx * Nx) % (Nx : ℤ), npround (p.im / s.Ly * Ny) % (Nx : ℤ))

/-- `State.update_tracer_velocity` (gpe.py 231-241).  Note the in-place
`px *= hbar`, `py *= hbar`, which mutates the `kxy` arrays; the new state
records the scaled arrays. -/
def update_tracer_velocity (s : State Nx Ny) : State Nx Ny :=
  let px : Fin Nx → ℝ := fun i => s.kxy.1 i * s.hbar
  let py : Fin Ny → ℝ := fun j => s.kxy.2 j * s.hbar
  let v_x : Fin Nx → Fin Ny → ℝ := fun i j =>
    (s.ifft (fun a b => (px a : ℂ) * s.fft s.data a b) i j / s.data i j / (s.m : ℂ)).re
  let v_y : Fin Nx → Fin Ny → ℝ := fun i j =>
    (s.ifft (fun a b => (py b : ℂ) * s.fft s.data a b) i j / s.data i j / (s.m : ℂ)).re
  { s with kxy := (px, py), v_trace := fun i j => ⟨v_x i j, v_y i j⟩ }

/-- `State.update_tracer_pos` (gpe.py 243-254): advance every tracer particle
by `dt` times the velocity sampled at its nearest grid indices.  (The
`hasattr` guards are construction-order artifacts: in this embedding both
`_par_pos` and `v_trace` always exist.) -/
def update_tracer_pos (s : State Nx Ny) (dt : ℝ) : State Nx Ny :=
  { s with par_pos :=
      s.par_pos.map (fun pos => pos + (dt : ℂ) * index2 s.v_trace (s.get_inds pos)) }

/-- `State.get_Vext` (gpe.py 273-285): static trap plus the moving Gaussian
finger potential, with the displaced coordinates wrapped into the periodic
box. -/
def get_Vext (s : State Nx Ny) : Fin Nx → Fin Ny → ℝ :=
  fun i j =>
    let x := pymod (s.xy.1 i - s.pot_z.re + s.Lx / 2) s.Lx - s.Lx / 2
    let y := pymod (s.xy.2 j - s.pot_z.im + s.Ly / 2) s.Ly - s.Ly / 2
    let r2 := x^2 + y^2
    s.V_trap i j + s.V0_mu * s.mu * Real.exp (-r2 / 2 / s.r0^2)

/-- `State.apply_expK` (gpe.py 287-300): spectral multiply by
`exp(_phase*dt*K*factor)` (the numexpr and plain branches evaluate the same
expression). -/
def apply_expK (s : State Nx Ny) (dt : ℝ) (factor : ℝ) : State Nx Ny :=
  { s with data := s.ifft (fun i j =>
      Complex.exp (s.phase_ * (dt : ℂ) * (s.K i j : ℂ) * (factor : ℂ)) * s.fft s.data i j) }

/-- `State.apply_expV` (gpe.py 302-321): multiply by
`exp(_phase*dt*(Vext + g*n - mu)*factor)` and rescale by `sqrt(_N/n.sum())`,
where `n` is the passed density array (`density=None` defaults to the current
density; `step` always passes the density captured before the finger update). -/
def apply_expV (s : State Nx Ny) (dt : ℝ) (factor : ℝ)
    (density : Fin Nx → Fin Ny → ℝ) : State Nx Ny :=
  let n := density
  let nsum := ∑ i, ∑ j, n i j
  let V : Fin Nx → Fin Ny → ℝ := fun i j => s.get_Vext i j + s.g * n i j - s.mu
  { s with data := fun i j =>
      Complex.exp (s.phase_ * (dt : ℂ) * (V i j : ℂ) * (factor : ℂ)) * s.data i j
        * (Real.sqrt (s.N_ / nsum) : ℂ) }

/-- `State.mod` (gpe.py 324-327): wrap a point into the periodic box,
`((x + L/2) % L) - L/2` on each axis. -/
def mod (s : State Nx Ny) (z : ℂ) : ℂ :=
  ⟨pymod (z.re + s.Lx / 2) s.Lx - s.Lx / 2, pymod (z.im + s.Ly / 2) s.Ly - s.Ly / 2⟩

end State

/-- The velocity clamp of gpe.py 343-345: if `abs(pot_v) > v_max`, rescale
`pot_v` by the real factor `v_max / abs(pot_v)` (preserving its direction),
else leave it unchanged. -/
def clampV (v : ℂ) (v_max : ℝ) : ℂ :=
  if Complex.abs v > v_max then v * ((v_max / Complex.abs v : ℝ) : ℂ) else v

namespace State

variable {Nx Ny : ℕ}

/-- One iteration of the inner loop of `State.step` (gpe.py 333-350); `dt` is
the value of `self.dt` captured at the top of `step` (never reassigned by the
body).  The conditional velocity rescale is `clampV`. -/
def tick (dt : ℝ) (s : State Nx Ny) : State Nx Ny :=
  let s1 := s.update_tracer_velocity
  let s2 := s1.update_tracer_pos dt
  let density := s2.get_density
  let s3 := { s2 with pot_z := s2.pot_z + (dt : ℂ) * s2.pot_v }
  let pot_a := -(s3.pot_k_m : ℂ) * (s3.pot_z - s3.z_finger) - (s3.pot_damp : ℂ) * s3.pot_v
  let s4 := { s3 with pot_v := s3.pot_v + (dt : ℂ) * pot_a }
  let s5 := { s4 with pot_v := clampV s4.pot_v (s4.get_v_max density) }
  let s6 := { s5 with pot_z := s5.mod s5.pot_z }
  let s7 := s6.apply_expV dt 1 density
  let s8 := s7.apply_expK dt 1
  { s8 with t := s8.t + dt }

/-- `State.step` (gpe.py 329-353): leading half kinetic step and `+dt/2`,
`N` inner iterations, trailing `factor = -0.5` kinetic step and `-dt/2`. -/
def step (s : State Nx Ny) (N : ℕ) : State Nx Ny :=
  let dt := s.dt
  let sa := s.apply_expK dt 0.5
  let sb := { sa with t := sa.t + dt / 2 }
  let sc := (tick dt)^[N] sb
  let sd := sc.apply_expK dt (-0.5)
  { sd with t := sd.t - dt / 2 }

end State

/-- The engine operations named by the spec's frame-effect clause: `step`,
`update_tracer_velocity`, `update_tracer_pos`, `apply_expK`, `apply_expV`. -/
inductive Op : Type where
  | step (N : ℕ)
  | update_tracer_velocity
  | update_tracer_pos (dt : ℝ)
  | apply_expK (dt factor : ℝ)
  | apply_expV (dt factor : ℝ)

/-- Run one engine operation (for `apply_expV` the source's `density=None`
default means the current density). -/
def applyOp {Nx Ny : ℕ} (o : Op) (s : State Nx Ny) : State Nx Ny :=
  match o with
  | Op.step N => s.step N
  | Op.update_tracer_velocity => s.update_tracer_velocity
  | Op.update_tracer_pos dt => s.update_tracer_pos dt
  | Op.apply_expK dt factor => s.apply_expK dt factor
  | Op.apply_expV dt factor => s.apply_expV dt factor s.get_density

/-- Run a sequence of engine operations. -/
def applyOps {Nx Ny : ℕ} (ops : List Op) (s : State Nx Ny) : State Nx Ny :=
  ops.foldl (fun s o => applyOp o s) s

/-- Spec §6 contract of the spectral-transform collaborator, specialised to
`np.fft.fftn`/`ifftn` normalisation: the forward transform scales summed
squared moduli by `Nx*Ny` and the inverse by `1/(Nx*Ny)` (Parseval). -/
def goodFFT {Nx Ny : ℕ} (s : State Nx Ny) : Prop :=
  (∀ x : Fin Nx → Fin Ny → ℂ,
    (∑ i, ∑ j, Complex.normSq (s.fft x i j)) =
      ((Nx : ℝ) * Ny) * ∑ i, ∑ j, Complex.normSq (x i j)) ∧
  (∀ x : Fin Nx → Fin Ny → ℂ,
    (∑ i, ∑ j, Complex.normSq (s.ifft x i j)) =
      (∑ i, ∑ j, Complex.normSq (x i j)) / ((Nx : ℝ) * Ny))

/-- A concrete 1×1 state (identity transforms, uniform unit data, stiff-free
finger with speed 4) used by the witnesses. -/
def unitState : State 1 1 where
  g := 1
  hbar := 1
  m := 1
  r0 := 1
  V0_mu := 0
  dx := 1
  Lx := 1
  Ly := 1
  healing_length := 1
  cooling_phase := 1
  xy := (fun _ => 0, fun _ => 0)
  kxy := (fun _ => 0, fun _ => 0)
  K := fun _ _ => 0
  n0 := 1
  mu := 0
  data := fun _ _ => 1
  cylinder := false
  V_trap := fun _ _ => 0
  fft := id
  ifft := id
  N_ := 1
  test_finger := false
  z_finger_ := 0
  pot_k_m := 0
  pot_z := 0
  pot_v := 4
  pot_damp := 0
  t := 0
  dt := 1
  v_trace := fun _ _ => 0
  par_pos := []

/-- A concrete 4×2 state (`Nxy=(4,2)`, `dx=1`, so `Lx=4`, `Ly=2`) exhibiting
the `% Nx` slip in `get_inds`. -/
def bugState : State 4 2 where
  g := 1
  hbar := 1
  m := 1
  r0 := 1
  V0_mu := 0
  dx := 1
  Lx := 4
  Ly := 2
  healing_length := 1
  cooling_phase := 1
  xy := (fun _ => 0, fun _ => 0)
  kxy := (fun _ => 0, fun _ => 0)
  K := fun _ _ => 0
  n0 := 1
  mu := 0
  data := fun _ _ => 1
  cylinder := false
  V_trap := fun _ _ => 0
  fft := id
  ifft := id
  N_ := 8
  test_finger := false
  z_finger_ := 0
  pot_k_m := 10
  pot_z := 0
  pot_v := 0
  pot_damp := 4
  t := 0
  dt := 1
  v_trace := fun _ _ => 0
  par_pos := []

/-- A concrete 1×2 state in imaginary-time (cooling) mode,
`cooling_phase = 1j`, with a non-constant potential (`V_trap = (0, 1)`,
`g*n` and `mu` cancelling), uniform unit data and `_N = 2`. -/
def coolState : State 1 2 where
  g := 1
  hbar := 1
  m := 1
  r0 := 1
  V0_mu := 0
  dx := 1
  Lx := 1
  Ly := 2
  healing_length := 1
  cooling_phase := Complex.I
  xy := (fun _ => 0, fun _ => 0)
  kxy := (fun _ => 0, fun _ => 0)
  K := fun _ _ => 0
  n0 := 1
  mu := 1
  data := fun _ _ => 1
  cylinder := false
  V_trap := fun _ j => (j.val : ℝ)
  fft := id
  ifft := id
  N_ := 2
  test_finger := false
  z_finger_ := 0
  pot_k_m := 10
  pot_z := 0
  pot_v := 0
  pot_damp := 4
  t := 0
  dt := 1
  v_trace := fun _ _ => 0
  par_pos := []

/-! ### Helper lemmas -/

/-- A field that every application of `f` preserves is preserved by `f^[n]`. -/
lemma iterate_pres {σ : Type*} {α : Sort*} (f : σ → σ) (g : σ → α)
    (h : ∀ x, g (f x) = g x) : ∀ (n : ℕ) (x : σ), g (f^[n] x) = g x := by
  intro n
  induction n with
  | zero => intro x; rfl
  | succ n ih =>
      intro x
      rw [Function.iterate_succ_apply, ih (f x), h x]

lemma pymod_eq_fract (x L : ℝ) (hL : L ≠ 0) : pymod x L = L * Int.fract (x / L) := by
  unfold pymod
  rw [Int.fract, mul_sub, mul_comm L (x / L), div_mul_cancel₀ _ hL]

lemma pymod_mem (x L : ℝ) (hL : 0 < L) : pymod x L ∈ Set.Ico 0 L := by
  rw [pymod_eq_fract x L hL.ne']
  constructor
  · exact mul_nonneg hL.le (Int.fract_nonneg _)
  · nlinarith [Int.fract_lt_one (x / L), Int.fract_nonneg (x / L)]

lemma State.mod_mem {Nx Ny : ℕ} (s : State Nx Ny) (z : ℂ)
    (hLx : 0 < s.Lx) (hLy : 0 < s.Ly) :
    (s.mod z).re ∈ Set.Ico (-(s.Lx / 2)) (s.Lx / 2) ∧
    (s.mod z).im ∈ Set.Ico (-(s.Ly / 2)) (s.Ly / 2) := by
  obtain ⟨hx1, hx2⟩ := pymod_mem (z.re + s.Lx / 2) s.Lx hLx
  obtain ⟨hy1, hy2⟩ := pymod_mem (z.im + s.Ly / 2) s.Ly hLy
  have e1 : (s.mod z).re = pymod (z.re + s.Lx / 2) s.Lx - s.Lx / 2 := rfl
  have e2 : (s.mod z).im = pymod (z.im + s.Ly / 2) s.Ly - s.Ly / 2 := rfl
  exact ⟨Set.mem_Ico.mpr ⟨by rw [e1]; linarith, by rw [e1]; linarith⟩,
         Set.mem_Ico.mpr ⟨by rw [e2]; linarith, by rw [e2]; linarith⟩⟩

lemma State.tick_t {Nx Ny : ℕ} (dt : ℝ) (s : State Nx Ny) :
    (State.tick dt s).t = s.t + dt := rfl

lemma State.tick_pot_z {Nx Ny : ℕ} (dt : ℝ) (s : State Nx Ny) :
    (State.tick dt s).pot_z = s.mod (s.pot_z + (dt : ℂ) * s.pot_v) := rfl

lemma State.tick_Lx {Nx Ny : ℕ} (dt : ℝ) (s : State Nx Ny) :
    (State.tick dt s).Lx = s.Lx := rfl

lemma State.tick_Ly {Nx Ny : ℕ} (dt : ℝ) (s : State Nx Ny) :
    (State.tick dt s).Ly = s.Ly := rfl

lemma State.get_v_max_nonneg {Nx Ny : ℕ} (s : State Nx Ny)
    (density : Fin Nx → Fin Ny → ℝ) : 0 ≤ s.get_v_max density := by
  unfold State.get_v_max
  positivity

lemma clampV_rescale {v : ℂ} {vm : ℝ} (h : Complex.abs v > vm) :
    clampV v vm = v * ((vm / Complex.abs v : ℝ) : ℂ) := by
  unfold clampV
  rw [if_pos h]

lemma clampV_abs_eq {v : ℂ} {vm : ℝ} (h : Complex.abs v > vm) (hvm : 0 ≤ vm) :
    Complex.abs (clampV v vm) = vm := by
  have ha : Complex.abs v ≠ 0 := (lt_of_le_of_lt hvm h).ne'
  rw [clampV_rescale h, map_mul, Complex.abs_ofReal,
    abs_of_nonneg (div_nonneg hvm (Complex.abs.nonneg v)), mul_comm,
    div_mul_cancel₀ _ ha]

lemma clampV_abs_le (v : ℂ) (vm : ℝ) (hvm : 0 ≤ vm) :
    Complex.abs (clampV v vm) ≤ vm := by
  by_cases h : Complex.abs v > vm
  · exact (clampV_abs_eq h hvm).le
  · unfold clampV
    rw [if_neg h]
    exact le_of_not_lt h

/-! ### Claim theorems: C6, C7, C8 -/

/-- C8: each `step N` call advances the simulation clock by exactly `N*dt` in
total: `dt/2` is added before the inner loop, `dt` once per inner iteration,
and `dt/2` is subtracted after the loop, so repeated calls advance the public
time value in fixed steps of `dt`. -/
theorem C8_step_advances_time {Nx Ny : ℕ} (s : State Nx Ny) (N : ℕ) :
    (s.step N).t = s.t + N * s.dt := by
  have hiter : ∀ (n : ℕ) (x : State Nx Ny),
      ((State.tick s.dt)^[n] x).t = x.t + n * s.dt := by
    intro n
    induction n with
    | zero => intro x; simp
    | succ n ih =>
        intro x
        rw [Function.iterate_succ_apply, ih, State.tick_t]
        push_cast
        ring
  have h1 : (s.step N).t =
      ((State.tick s.dt)^[N]
        { s.apply_expK s.dt 0.5 with t := (s.apply_expK s.dt 0.5).t + s.dt / 2 }).t
        - s.dt / 2 := rfl
  have h2 : ({ s.apply_expK s.dt 0.5 with
      t := (s.apply_expK s.dt 0.5).t + s.dt / 2 } : State Nx Ny).t = s.t + s.dt / 2 := rfl
  rw [h1, hiter, h2]
  ring

/-- C6: after every tick inside `step` (and hence after any `step N` call with
`N ≥ 1`), the finger position `pot_z` lies inside the periodic box:
real part in `[-Lx/2, Lx/2)`, imaginary part in `[-Ly/2, Ly/2)`, enforced by
the wrap `((x + L/2) mod L) - L/2` applied on each axis every tick. -/
theorem C6_finger_in_box {Nx Ny : ℕ} (s : State Nx Ny) (N : ℕ) (hN : 1 ≤ N)
    (hLx : 0 < s.Lx) (hLy : 0 < s.Ly) :
    (s.step N).pot_z.re ∈ Set.Ico (-(s.Lx / 2)) (s.Lx / 2) ∧
    (s.step N).pot_z.im ∈ Set.Ico (-(s.Ly / 2)) (s.Ly / 2) := by
  have h1 : (s.step N).pot_z =
      ((State.tick s.dt)^[N]
        { s.apply_expK s.dt 0.5 with
          t := (s.apply_expK s.dt 0.5).t + s.dt / 2 }).pot_z := rfl
  obtain ⟨M, rfl⟩ : ∃ M, N = M + 1 := ⟨N - 1, by omega⟩
  rw [h1, Function.iterate_succ_apply', State.tick_pot_z]
  have hLx' : ((State.tick s.dt)^[M]
      { s.apply_expK s.dt 0.5 with
        t := (s.apply_expK s.dt 0.5).t + s.dt / 2 }).Lx = s.Lx :=
    (iterate_pres (State.tick s.dt) (fun y => y.Lx) (State.tick_Lx s.dt) M _).trans rfl
  have hLy' : ((State.tick s.dt)^[M]
      { s.apply_expK s.dt 0.5 with
        t := (s.apply_expK s.dt 0.5).t + s.dt / 2 }).Ly = s.Ly :=
    (iterate_pres (State.tick s.dt) (fun y => y.Ly) (State.tick_Ly s.dt) M _).trans rfl
  have hx0 : 0 < ((State.tick s.dt)^[M]
      { s.apply_expK s.dt 0.5 with
        t := (s.apply_expK s.dt 0.5).t + s.dt / 2 }).Lx := by rw [hLx']; exact hLx
  have hy0 : 0 < ((State.tick s.dt)^[M]
      { s.apply_expK s.dt 0.5 with
        t := (s.apply_expK s.dt 0.5).t + s.dt / 2 }).Ly := by rw [hLy']; exact hLy
  have hmem := State.mod_mem ((State.tick s.dt)^[M]
      { s.apply_expK s.dt 0.5 with
        t := (s.apply_expK s.dt 0.5).t + s.dt / 2 })
      (((State.tick s.dt)^[M]
      { s.apply_expK s.dt 0.5 with
        t := (s.apply_expK s.dt 0.5).t + s.dt / 2 }).pot_z
        + (s.dt : ℂ) * ((State.tick s.dt)^[M]
      { s.apply_expK s.dt 0.5 with
        t := (s.apply_expK s.dt 0.5).t + s.dt / 2 }).pot_v)
      hx0 hy0
  rw [hLx', hLy'] at hmem
  exact hmem

/-- Witness for C6 at the concrete `unitState` with one step. -/
theorem C6_finger_in_box_witness :
    (unitState.step 1).pot_z.re ∈ Set.Ico (-(unitState.Lx / 2)) (unitState.Lx / 2) ∧
    (unitState.step 1).pot_z.im ∈ Set.Ico (-(unitState.Ly / 2)) (unitState.Ly / 2) :=
  C6_finger_in_box unitState 1 (le_refl 1)
    (by norm_num : (0:ℝ) < 1) (by norm_num : (0:ℝ) < 1)

/-- C7: in every tick of `step`, immediately after the finger-velocity update
and clamp, the speed `|pot_v|` does not exceed
`v_max = sqrt(g*mean(n)/m)` computed from the density captured at that tick;
the post-update velocity is exactly the clamp of the semi-implicit-Euler
updated velocity, and when the pre-clamp speed exceeds the bound the velocity
is rescaled to exactly that bound, preserving its direction. -/
theorem C7_velocity_clamp {Nx Ny : ℕ} (dt : ℝ) (s : State Nx Ny) :
    Complex.abs ((State.tick dt s).pot_v) ≤ s.get_v_max s.get_density ∧
    (State.tick dt s).pot_v =
      clampV (s.pot_v + (dt : ℂ) *
          (-(s.pot_k_m : ℂ) * ((s.pot_z + (dt : ℂ) * s.pot_v) - s.z_finger)
            - (s.pot_damp : ℂ) * s.pot_v))
        (s.get_v_max s.get_density) ∧
    (∀ v : ℂ, Complex.abs v > s.get_v_max s.get_density →
      clampV v (s.get_v_max s.get_density) =
        v * ((s.get_v_max s.get_density / Complex.abs v : ℝ) : ℂ) ∧
      Complex.abs (clampV v (s.get_v_max s.get_density)) =
        s.get_v_max s.get_density) := by
  refine ⟨?_, rfl, ?_⟩
  · have h : (State.tick dt s).pot_v =
        clampV (s.pot_v + (dt : ℂ) *
            (-(s.pot_k_m : ℂ) * ((s.pot_z + (dt : ℂ) * s.pot_v) - s.z_finger)
              - (s.pot_damp : ℂ) * s.pot_v))
          (s.get_v_max s.get_density) := rfl
    rw [h]
    exact clampV_abs_le _ _ (s.get_v_max_nonneg s.get_density)
  · intro v hv
    exact ⟨clampV_rescale hv, clampV_abs_eq hv (s.get_v_max_nonneg s.get_density)⟩

/-- Witness for C7 at `unitState` (pre-clamp speed 4, sound-speed bound 1). -/
theorem C7_velocity_clamp_witness :
    Complex.abs ((State.tick 1 unitState).pot_v) ≤
      unitState.get_v_max unitState.get_density ∧
    clampV 4 (unitState.get_v_max unitState.get_density) =
      4 * ((unitState.get_v_max unitState.get_density / Complex.abs 4 : ℝ) : ℂ) ∧
    Complex.abs (clampV 4 (unitState.get_v_max unitState.get_density)) =
      unitState.get_v_max unitState.get_density := by
  have hvm : unitState.get_v_max unitState.get_density = 1 := by
    norm_num [State.get_v_max, State.get_density, unitState]
  have h4 : Complex.abs (4 : ℂ) > unitState.get_v_max unitState.get_density := by
    rw [hvm]
    norm_num
  exact ⟨(C7_velocity_clamp 1 unitState).1,
    ((C7_velocity_clamp 1 unitState).2.2 4 h4).1,
    ((C7_velocity_clamp 1 unitState).2.2 4 h4).2⟩

/-! ### Frame-effect lemmas for the engine operations -/

lemma State.tick_xy {Nx Ny : ℕ} (dt : ℝ) (s : State Nx Ny) :
    (State.tick dt s).xy = s.xy := rfl

lemma State.tick_K {Nx Ny : ℕ} (dt : ℝ) (s : State Nx Ny) :
    (State.tick dt s).K = s.K := rfl

lemma State.tick_hbar {Nx Ny : ℕ} (dt : ℝ) (s : State Nx Ny) :
    (State.tick dt s).hbar = s.hbar := rfl

lemma State.tick_kxy {Nx Ny : ℕ} (dt : ℝ) (s : State Nx Ny) :
    (State.tick dt s).kxy =
      (fun i => s.kxy.1 i * s.hbar, fun j => s.kxy.2 j * s.hbar) := rfl

lemma State.tick_kxy_of_hbar {Nx Ny : ℕ} {dt : ℝ} {s : State Nx Ny}
    (h : s.hbar = 1) : (State.tick dt s).kxy = s.kxy := by
  rw [State.tick_kxy, h]
  simp

lemma State.utv_kxy {Nx Ny : ℕ} {s : State Nx Ny} (h : s.hbar = 1) :
    s.update_tracer_velocity.kxy = s.kxy := by
  have e : s.update_tracer_velocity.kxy =
      (fun i => s.kxy.1 i * s.hbar, fun j => s.kxy.2 j * s.hbar) := rfl
  rw [e, h]
  simp

/-- `step` preserves any field that `tick`, `apply_expK` and setting `t`
preserve. -/
lemma State.step_pres {Nx Ny : ℕ} {α : Sort*} (s : State Nx Ny) (N : ℕ)
    (g : State Nx Ny → α)
    (htick : ∀ (dtv : ℝ) (x : State Nx Ny), g (State.tick dtv x) = g x)
    (hexpK : ∀ (x : State Nx Ny) (dtv fac : ℝ), g (x.apply_expK dtv fac) = g x)
    (ht : ∀ (x : State Nx Ny) (v : ℝ), g { x with t := v } = g x) :
    g (s.step N) = g s := by
  have h1 : s.step N =
      { ((State.tick s.dt)^[N]
          { s.apply_expK s.dt 0.5 with
            t := (s.apply_expK s.dt 0.5).t + s.dt / 2 }).apply_expK s.dt (-0.5) with
        t := (((State.tick s.dt)^[N]
          { s.apply_expK s.dt 0.5 with
            t := (s.apply_expK s.dt 0.5).t + s.dt / 2 }).apply_expK s.dt (-0.5)).t
          - s.dt / 2 } := rfl
  rw [h1, ht, hexpK, iterate_pres (State.tick s.dt) g (htick s.dt) N, ht, hexpK]

lemma State.step_xy {Nx Ny : ℕ} (s : State Nx Ny) (N : ℕ) :
    (s.step N).xy = s.xy :=
  State.step_pres s N (fun y => y.xy) State.tick_xy
    (fun _ _ _ => rfl) (fun _ _ => rfl)

lemma State.step_K {Nx Ny : ℕ} (s : State Nx Ny) (N : ℕ) :
    (s.step N).K = s.K :=
  State.step_pres s N (fun y => y.K) State.tick_K
    (fun _ _ _ => rfl) (fun _ _ => rfl)

lemma State.step_hbar {Nx Ny : ℕ} (s : State Nx Ny) (N : ℕ) :
    (s.step N).hbar = s.hbar :=
  State.step_pres s N (fun y => y.hbar) State.tick_hbar
    (fun _ _ _ => rfl) (fun _ _ => rfl)

lemma State.step_kxy {Nx Ny : ℕ} (s : State Nx Ny) (N : ℕ) (h : s.hbar = 1) :
    (s.step N).kxy = s.kxy := by
  have h1 : (s.step N).kxy = ((State.tick s.dt)^[N]
      { s.apply_expK s.dt 0.5 with
        t := (s.apply_expK s.dt 0.5).t + s.dt / 2 }).kxy := rfl
  have hsb : ({ s.apply_expK s.dt 0.5 with
      t := (s.apply_expK s.dt 0.5).t + s.dt / 2 } : State Nx Ny).hbar = 1 := h
  have H : ∀ (n : ℕ) (x : State Nx Ny), x.hbar = 1 →
      ((State.tick s.dt)^[n] x).kxy = x.kxy ∧ ((State.tick s.dt)^[n] x).hbar = 1 := by
    intro n
    induction n with
    | zero => intro x hx; exact ⟨rfl, hx⟩
    | succ n ih =>
        intro x hx
        rw [Function.iterate_succ_apply]
        have h2 : (State.tick s.dt x).hbar = 1 := (State.tick_hbar s.dt x).trans hx
        have h3 := ih (State.tick s.dt x) h2
        exact ⟨h3.1.trans (State.tick_kxy_of_hbar hx), h3.2⟩
  rw [h1, (H N _ hsb).1]
  rfl

/-- C9: the real-space coordinate arrays `xy`, the momentum arrays `kxy` and
the kinetic operator `K` hold the same values after any sequence of `step`,
`update_tracer_velocity`, `update_tracer_pos`, `apply_expK`, `apply_expV`
calls as at construction: the only mutation is `update_tracer_velocity`'s
in-place scaling of `kxy` by `hbar`, which is the identity because the
constructor sets `hbar = 1` (gpe.py 90). -/
theorem C9_grid_arrays_immutable {Nx Ny : ℕ} (s : State Nx Ny)
    (h : s.hbar = 1) (ops : List Op) :
    (applyOps ops s).xy = s.xy ∧ (applyOps ops s).kxy = s.kxy ∧
    (applyOps ops s).K = s.K := by
  suffices H : ∀ (l : List Op) (x : State Nx Ny), x.hbar = 1 →
      (applyOps l x).xy = x.xy ∧ (applyOps l x).kxy = x.kxy ∧
      (applyOps l x).K = x.K ∧ (applyOps l x).hbar = 1 by
    obtain ⟨a, b, c, -⟩ := H ops s h
    exact ⟨a, b, c⟩
  intro l
  induction l with
  | nil => intro x hx; exact ⟨rfl, rfl, rfl, hx⟩
  | cons o rest ih =>
      intro x hx
      have hop : (applyOp o x).xy = x.xy ∧ (applyOp o x).kxy = x.kxy ∧
          (applyOp o x).K = x.K ∧ (applyOp o x).hbar = 1 := by
        cases o with
        | step N =>
            exact ⟨State.step_xy x N, State.step_kxy x N hx, State.step_K x N,
              (State.step_hbar x N).trans hx⟩
        | update_tracer_velocity => exact ⟨rfl, State.utv_kxy hx, rfl, hx⟩
        | update_tracer_pos dtv => exact ⟨rfl, rfl, rfl, hx⟩
        | apply_expK dtv fac => exact ⟨rfl, rfl, rfl, hx⟩
        | apply_expV dtv fac => exact ⟨rfl, rfl, rfl, hx⟩
      have hrest := ih (applyOp o x) hop.2.2.2
      have hfold : applyOps (o :: rest) x = applyOps rest (applyOp o x) := rfl
      rw [hfold]
      exact ⟨hrest.1.trans hop.1, hrest.2.1.trans hop.2.1,
        hrest.2.2.1.trans hop.2.2.1, hrest.2.2.2⟩

/-- Witness for C9 at `unitState` with a concrete operation sequence. -/
theorem C9_grid_arrays_immutable_witness :
    (applyOps [Op.step 1, Op.update_tracer_velocity, Op.apply_expK 1 1,
      Op.update_tracer_pos 1, Op.apply_expV 1 1] unitState).xy = unitState.xy ∧
    (applyOps [Op.step 1, Op.update_tracer_velocity, Op.apply_expK 1 1,
      Op.update_tracer_pos 1, Op.apply_expV 1 1] unitState).kxy = unitState.kxy ∧
    (applyOps [Op.step 1, Op.update_tracer_velocity, Op.apply_expK 1 1,
      Op.update_tracer_pos 1, Op.apply_expV 1 1] unitState).K = unitState.K :=
  C9_grid_arrays_immutable unitState rfl _

/-- C10: `step 0` is the identity on the wavefunction and the clock: the
leading `factor = 0.5` and trailing `factor = -0.5` kinetic propagators
compose to the identity given the transform round-trip contracts, the `dt/2`
clock advance is exactly undone, and tracer positions, finger position and
finger velocity are untouched. -/
theorem C10_step_zero_identity {Nx Ny : ℕ} (s : State Nx Ny)
    (hinv : ∀ x, s.ifft (s.fft x) = x) (hsurj : ∀ x, s.fft (s.ifft x) = x) :
    (s.step 0).data = s.data ∧ (s.step 0).t = s.t ∧
    (s.step 0).par_pos = s.par_pos ∧ (s.step 0).pot_z = s.pot_z ∧
    (s.step 0).pot_v = s.pot_v ∧ (s.step 0).z_finger_ = s.z_finger_ := by
  refine ⟨?_, ?_, rfl, rfl, rfl, rfl⟩
  · have e : (s.step 0).data = s.ifft (fun i j =>
        Complex.exp (s.phase_ * (s.dt : ℂ) * (s.K i j : ℂ) * ((-0.5 : ℝ) : ℂ)) *
          s.fft (s.ifft (fun a b =>
            Complex.exp (s.phase_ * (s.dt : ℂ) * (s.K a b : ℂ) * ((0.5 : ℝ) : ℂ)) *
              s.fft s.data a b)) i j) := rfl
    have hexp : ∀ (i : Fin Nx) (j : Fin Ny),
        Complex.exp (s.phase_ * (s.dt : ℂ) * (s.K i j : ℂ) * ((-0.5 : ℝ) : ℂ)) *
          (Complex.exp (s.phase_ * (s.dt : ℂ) * (s.K i j : ℂ) * ((0.5 : ℝ) : ℂ)) *
            s.fft s.data i j) = s.fft s.data i j := by
      intro i j
      rw [← mul_assoc, ← Complex.exp_add]
      have hz : s.phase_ * (s.dt : ℂ) * (s.K i j : ℂ) * ((-0.5 : ℝ) : ℂ) +
          s.phase_ * (s.dt : ℂ) * (s.K i j : ℂ) * ((0.5 : ℝ) : ℂ) = 0 := by
        push_cast
        ring
      rw [hz, Complex.exp_zero, one_mul]
    rw [e, hsurj]
    have e2 : (fun (i : Fin Nx) (j : Fin Ny) =>
        Complex.exp (s.phase_ * (s.dt : ℂ) * (s.K i j : ℂ) * ((-0.5 : ℝ) : ℂ)) *
          (fun a b => Complex.exp
              (s.phase_ * (s.dt : ℂ) * (s.K a b : ℂ) * ((0.5 : ℝ) : ℂ)) *
            s.fft s.data a b) i j) = s.fft s.data := by
      funext i j
      exact hexp i j
    rw [e2, hinv]
  · have e : (s.step 0).t = s.t + s.dt / 2 - s.dt / 2 := rfl
    rw [e]
    ring

/-- Witness for C10 at `unitState`, whose transforms are the identity. -/
theorem C10_step_zero_identity_witness :
    (unitState.step 0).data = unitState.data ∧ (unitState.step 0).t = unitState.t ∧
    (unitState.step 0).par_pos = unitState.par_pos ∧
    (unitState.step 0).pot_z = unitState.pot_z ∧
    (unitState.step 0).pot_v = unitState.pot_v ∧
    (unitState.step 0).z_finger_ = unitState.z_finger_ :=
  C10_step_zero_identity unitState (fun _ => rfl) (fun _ => rfl)

/-! ### Mass-conservation lemmas (C1) -/

lemma State.get_density_eq_normSq {Nx Ny : ℕ} (s : State Nx Ny)
    (i : Fin Nx) (j : Fin Ny) :
    s.get_density i j = Complex.normSq (s.data i j) := by
  unfold State.get_density
  rw [mul_comm, Complex.mul_conj]
  exact Complex.ofReal_re _

lemma State.phase_re_of_real {Nx Ny : ℕ} (s : State Nx Ny)
    (h : s.cooling_phase.im = 0) : s.phase_.re = 0 := by
  have hc : s.cooling_phase = ((s.cooling_phase.re : ℝ) : ℂ) := by
    apply Complex.ext
    · simp
    · simp [h]
  rw [State.phase_, hc, Complex.div_ofReal_re, Complex.div_ofReal_re]
  simp

lemma normSq_exp_re_zero {z : ℂ} (h : z.re = 0) :
    Complex.normSq (Complex.exp z) = 1 := by
  rw [Complex.normSq_eq_abs, Complex.abs_exp, h, Real.exp_zero, one_pow]

lemma sum_normSq_exp_mul {Nx Ny : ℕ} (phase : ℂ) (hre : phase.re = 0)
    (dtv fac : ℝ) (W : Fin Nx → Fin Ny → ℝ) (y : Fin Nx → Fin Ny → ℂ) :
    (∑ i, ∑ j, Complex.normSq
      (Complex.exp (phase * (dtv : ℂ) * ((W i j : ℝ) : ℂ) * (fac : ℂ)) * y i j))
      = ∑ i, ∑ j, Complex.normSq (y i j) := by
  refine Finset.sum_congr rfl fun i _ => Finset.sum_congr rfl fun j _ => ?_
  rw [Complex.normSq_mul,
    normSq_exp_re_zero (by simp [Complex.mul_re, Complex.mul_im, hre]), one_mul]

lemma sum_normSq_mul_ofReal {Nx Ny : ℕ} (c : ℝ) (y : Fin Nx → Fin Ny → ℂ) :
    (∑ i, ∑ j, Complex.normSq (y i j * (c : ℂ)))
      = (∑ i, ∑ j, Complex.normSq (y i j)) * (c * c) := by
  rw [Finset.sum_mul]
  refine Finset.sum_congr rfl fun i _ => ?_
  rw [Finset.sum_mul]
  refine Finset.sum_congr rfl fun j _ => ?_
  rw [Complex.normSq_mul, Complex.normSq_ofReal]

/-- After `apply_expV` with a unit-modulus propagator (purely imaginary
`_phase`, as in real-time mode with a real cooling phase), the summed density
is restored to exactly `_N`: the rescale by `sqrt(_N/n.sum())` cancels the
current total because the exponential factors do not change any modulus. -/
lemma State.density_sum_apply_expV {Nx Ny : ℕ} (s : State Nx Ny)
    (dtv fac : ℝ) (density : Fin Nx → Fin Ny → ℝ)
    (hphase : s.phase_.re = 0) (hN : 0 ≤ s.N_)
    (hd : density = s.get_density)
    (hpos : 0 < ∑ i, ∑ j, density i j) :
    (s.apply_expV dtv fac density).density_sum = s.N_ := by
  have h1 : (s.apply_expV dtv fac density).density_sum
      = ∑ i, ∑ j, Complex.normSq
          (Complex.exp (s.phase_ * (dtv : ℂ) *
              ((s.get_Vext i j + s.g * density i j - s.mu : ℝ) : ℂ) * (fac : ℂ)) *
            s.data i j *
            ((Real.sqrt (s.N_ / ∑ p, ∑ q, density p q) : ℝ) : ℂ)) :=
    Finset.sum_congr rfl fun i _ => Finset.sum_congr rfl fun j _ =>
      State.get_density_eq_normSq _ i j
  rw [h1, sum_normSq_mul_ofReal, sum_normSq_exp_mul s.phase_ hphase dtv fac,
    Real.mul_self_sqrt (div_nonneg hN hpos.le)]
  have h2 : (∑ i, ∑ j, Complex.normSq (s.data i j)) = ∑ p, ∑ q, density p q := by
    rw [hd]
    exact Finset.sum_congr rfl fun i _ => Finset.sum_congr rfl fun j _ =>
      (State.get_density_eq_normSq _ i j).symm
  rw [h2, mul_comm]
  exact div_mul_cancel₀ s.N_ hpos.ne'

/-- `apply_expK` with a unit-modulus propagator preserves the summed density,
given the Parseval contracts of the transform collaborator. -/
lemma State.density_sum_apply_expK {Nx Ny : ℕ} (s : State Nx Ny)
    (dtv fac : ℝ) (hphase : s.phase_.re = 0) (hg : goodFFT s)
    (hNN : ((Nx : ℝ) * Ny) ≠ 0) :
    (s.apply_expK dtv fac).density_sum = s.density_sum := by
  have h1 : (s.apply_expK dtv fac).density_sum
      = ∑ i, ∑ j, Complex.normSq
          (s.ifft (fun a b =>
            Complex.exp (s.phase_ * (dtv : ℂ) * (s.K a b : ℂ) * (fac : ℂ)) *
              s.fft s.data a b) i j) :=
    Finset.sum_congr rfl fun i _ => Finset.sum_congr rfl fun j _ =>
      State.get_density_eq_normSq _ i j
  rw [h1, hg.2, sum_normSq_exp_mul s.phase_ hphase dtv fac, hg.1,
    mul_comm, mul_div_assoc, div_self hNN, mul_one]
  exact (Finset.sum_congr rfl fun i _ => Finset.sum_congr rfl fun j _ =>
    (State.get_density_eq_normSq _ i j).symm).trans rfl

lemma State.tick_N {Nx Ny : ℕ} (dt : ℝ) (s : State Nx Ny) :
    (State.tick dt s).N_ = s.N_ := rfl

lemma State.tick_fft {Nx Ny : ℕ} (dt : ℝ) (s : State Nx Ny) :
    (State.tick dt s).fft = s.fft := rfl

lemma State.tick_ifft {Nx Ny : ℕ} (dt : ℝ) (s : State Nx Ny) :
    (State.tick dt s).ifft = s.ifft := rfl

lemma State.tick_phase {Nx Ny : ℕ} (dt : ℝ) (s : State Nx Ny) :
    (State.tick dt s).phase_ = s.phase_ := rfl

lemma goodFFT_of_eq {Nx Ny : ℕ} {x y : State Nx Ny}
    (hf : y.fft = x.fft) (hi : y.ifft = x.ifft) (h : goodFFT x) : goodFFT y := by
  unfold goodFFT at *
  rw [hf, hi]
  exact h

/-- One inner iteration of `step` in a unit-modulus (real cooling phase)
regime restores the summed density to exactly `_N`. -/
lemma State.density_sum_tick {Nx Ny : ℕ} (dtv : ℝ) (x : State Nx Ny)
    (hphase : x.phase_.re = 0) (hN : 0 ≤ x.N_) (hg : goodFFT x)
    (hNN : ((Nx : ℝ) * Ny) ≠ 0) (hpos : 0 < x.density_sum) :
    (State.tick dtv x).density_sum = x.N_ := by
  obtain ⟨V, hV⟩ : ∃ V : Fin Nx → Fin Ny → ℝ, (State.tick dtv x).data
      = x.ifft (fun a b =>
          Complex.exp (x.phase_ * (dtv : ℂ) * (x.K a b : ℂ) * ((1 : ℝ) : ℂ)) *
          x.fft (fun p q =>
            Complex.exp (x.phase_ * (dtv : ℂ) * ((V p q : ℝ) : ℂ) * ((1 : ℝ) : ℂ)) *
              x.data p q *
              ((Real.sqrt (x.N_ / ∑ a, ∑ b, x.get_density a b) : ℝ) : ℂ)) a b) :=
    ⟨_, rfl⟩
  have h1 : (State.tick dtv x).density_sum
      = ∑ i, ∑ j, Complex.normSq ((State.tick dtv x).data i j) :=
    Finset.sum_congr rfl fun i _ => Finset.sum_congr rfl fun j _ =>
      State.get_density_eq_normSq _ i j
  rw [h1, hV, hg.2, sum_normSq_exp_mul x.phase_ hphase dtv 1, hg.1]
  rw [sum_normSq_mul_ofReal, sum_normSq_exp_mul x.phase_ hphase dtv 1]
  have h2 : (∑ i, ∑ j, Complex.normSq (x.data i j)) = x.density_sum :=
    (Finset.sum_congr rfl fun i _ => Finset.sum_congr rfl fun j _ =>
      (State.get_density_eq_normSq _ i j).symm).trans rfl
  have h3 : (∑ a, ∑ b, x.get_density a b) = x.density_sum := rfl
  rw [h2, h3, Real.mul_self_sqrt (div_nonneg hN hpos.le),
    mul_comm x.density_sum, div_mul_cancel₀ x.N_ hpos.ne',
    mul_comm, mul_div_assoc, div_self hNN, mul_one]

lemma State.step_N {Nx Ny : ℕ} (s : State Nx Ny) (N : ℕ) :
    (s.step N).N_ = s.N_ :=
  State.step_pres s N (fun y => y.N_) State.tick_N
    (fun _ _ _ => rfl) (fun _ _ => rfl)

lemma State.step_fft {Nx Ny : ℕ} (s : State Nx Ny) (N : ℕ) :
    (s.step N).fft = s.fft :=
  State.step_pres s N (fun y => y.fft) State.tick_fft
    (fun _ _ _ => rfl) (fun _ _ => rfl)

lemma State.step_ifft {Nx Ny : ℕ} (s : State Nx Ny) (N : ℕ) :
    (s.step N).ifft = s.ifft :=
  State.step_pres s N (fun y => y.ifft) State.tick_ifft
    (fun _ _ _ => rfl) (fun _ _ => rfl)

lemma State.step_phase {Nx Ny : ℕ} (s : State Nx Ny) (N : ℕ) :
    (s.step N).phase_ = s.phase_ :=
  State.step_pres s N (fun y => y.phase_) State.tick_phase
    (fun _ _ _ => rfl) (fun _ _ => rfl)

/-- A single `step N` call in a unit-modulus regime preserves
`density_sum = _N`. -/
lemma State.density_sum_step {Nx Ny : ℕ} (s : State Nx Ny) (N : ℕ)
    (hphase : s.phase_.re = 0) (hg : goodFFT s)
    (hNN : ((Nx : ℝ) * Ny) ≠ 0) (hNpos : 0 < s.N_)
    (hsum : s.density_sum = s.N_) :
    (s.step N).density_sum = s.N_ := by
  have HT : ∀ (n : ℕ) (x : State Nx Ny),
      x.phase_ = s.phase_ → x.N_ = s.N_ → x.fft = s.fft → x.ifft = s.ifft →
      x.density_sum = s.N_ →
      ((State.tick s.dt)^[n] x).phase_ = s.phase_ ∧
      ((State.tick s.dt)^[n] x).N_ = s.N_ ∧
      ((State.tick s.dt)^[n] x).fft = s.fft ∧
      ((State.tick s.dt)^[n] x).ifft = s.ifft ∧
      ((State.tick s.dt)^[n] x).density_sum = s.N_ := by
    intro n
    induction n with
    | zero => intro x h1 h2 h3 h4 h5; exact ⟨h1, h2, h3, h4, h5⟩
    | succ n ih =>
        intro x h1 h2 h3 h4 h5
        rw [Function.iterate_succ_apply]
        refine ih (State.tick s.dt x)
          ((State.tick_phase s.dt x).trans h1) ((State.tick_N s.dt x).trans h2)
          ((State.tick_fft s.dt x).trans h3) ((State.tick_ifft s.dt x).trans h4) ?_
        have hx : (State.tick s.dt x).density_sum = x.N_ :=
          State.density_sum_tick s.dt x (by rw [h1]; exact hphase)
            (by rw [h2]; exact hNpos.le) (goodFFT_of_eq h3 h4 hg) hNN
            (by rw [h5]; exact hNpos)
        exact hx.trans h2
  have e1 : (s.step N).density_sum =
      (((State.tick s.dt)^[N]
        { s.apply_expK s.dt 0.5 with
          t := (s.apply_expK s.dt 0.5).t + s.dt / 2 }).apply_expK s.dt (-0.5)).density_sum :=
    rfl
  have hsb : ({ s.apply_expK s.dt 0.5 with
      t := (s.apply_expK s.dt 0.5).t + s.dt / 2 } : State Nx Ny).density_sum = s.N_ := by
    have := State.density_sum_apply_expK s s.dt 0.5 hphase hg hNN
    exact this.trans hsum
  obtain ⟨p1, p2, p3, p4, p5⟩ := HT N
    { s.apply_expK s.dt 0.5 with t := (s.apply_expK s.dt 0.5).t + s.dt / 2 }
    rfl rfl rfl rfl hsb
  rw [e1]
  have hfin := State.density_sum_apply_expK
    ((State.tick s.dt)^[N]
      { s.apply_expK s.dt 0.5 with t := (s.apply_expK s.dt 0.5).t + s.dt / 2 })
    s.dt (-0.5) (by rw [p1]; exact hphase) (goodFFT_of_eq p3 p4 hg) hNN
  exact hfin.trans p5

/-- C1 (amended): for a state with a purely real cooling phase (so that the
potential and kinetic propagators have unit modulus), positive target `_N`,
the spec §6 Parseval transform contracts, and summed density equal to `_N`,
any sequence of `step` calls leaves the summed density `Σ|ψ|²` exactly equal
to the recorded `_N`; moreover each `apply_expV` call (with the current
density, as in `step`) restores the summed density to exactly `_N`.  (With a
non-real cooling phase — including imaginary-time cooling — the rescale by
`sqrt(_N/n.sum())` uses the pre-multiplication density and does not restore
`_N` exactly; see the counterexample.) -/
theorem C1_mass_conservation_real_phase {Nx Ny : ℕ} (s : State Nx Ny)
    (hc : s.cooling_phase.im = 0) (hg : goodFFT s)
    (hNN : ((Nx : ℝ) * Ny) ≠ 0) (hNpos : 0 < s.N_)
    (hsum : s.density_sum = s.N_) (Ns : List ℕ) :
    (Ns.foldl (fun x n => State.step x n) s).density_sum = s.N_ ∧
    (∀ density, density = s.get_density →
      (s.apply_expV s.dt 1 density).density_sum = s.N_) := by
  have hphase : s.phase_.re = 0 := State.phase_re_of_real s hc
  constructor
  · suffices H : ∀ (l : List ℕ) (x : State Nx Ny), x.phase_ = s.phase_ →
        x.N_ = s.N_ → x.fft = s.fft → x.ifft = s.ifft → x.density_sum = s.N_ →
        (l.foldl (fun y n => State.step y n) x).density_sum = s.N_ by
      exact H Ns s rfl rfl rfl rfl hsum
    intro l
    induction l with
    | nil => intro x _ _ _ _ h5; exact h5
    | cons n rest ih =>
        intro x h1 h2 h3 h4 h5
        have hx : (x.step n).density_sum = s.N_ := by
          have := State.density_sum_step x n (by rw [h1]; exact hphase)
            (goodFFT_of_eq h3 h4 hg) hNN (by rw [h2]; exact hNpos)
            (h5.trans h2.symm)
          exact this.trans h2
        exact ih (x.step n) ((State.step_phase x n).trans h1)
          ((State.step_N x n).trans h2) ((State.step_fft x n).trans h3)
          ((State.step_ifft x n).trans h4) hx
  · intro density hd
    refine State.density_sum_apply_expV s s.dt 1 density hphase hNpos.le hd ?_
    rw [hd]
    have h0 : (∑ i, ∑ j, s.get_density i j) = s.density_sum := rfl
    rw [h0, hsum]
    exact hNpos

/-- Witness for the amended C1 at `unitState` with the call sequence
`step 1; step 2`. -/
theorem C1_mass_conservation_real_phase_witness :
    (([1, 2] : List ℕ).foldl (fun x n => State.step x n) unitState).density_sum
      = unitState.N_ ∧
    (unitState.apply_expV unitState.dt 1 unitState.get_density).density_sum
      = unitState.N_ := by
  have hc : unitState.cooling_phase.im = 0 := by
    simp [unitState]
  have hg : goodFFT unitState := by
    constructor <;> intro x <;> simp [unitState]
  have hNN : (((1 : ℕ) : ℝ) * (1 : ℕ)) ≠ 0 := by norm_num
  have hNpos : (0 : ℝ) < unitState.N_ := by norm_num [unitState]
  have hsum : unitState.density_sum = unitState.N_ := by
    simp [State.density_sum, State.get_density, unitState]
  have h := C1_mass_conservation_real_phase unitState hc hg hNN hNpos hsum [1, 2]
  exact ⟨h.1, h.2 unitState.get_density rfl⟩

/-- C1 counterexample: in imaginary-time (cooling) mode the claim "the total
density is restored to exactly `_N` after every potential sub-step" fails: at
`coolState` (cooling phase `1j`, non-constant potential) a single
`apply_expV` leaves `Σ|ψ|² = 1 + e⁻² ≠ 2 = _N`. -/
theorem C1_counterexample_cooling :
    (coolState.apply_expV 1 1 coolState.get_density).density_sum
      ≠ coolState.N_ := by
  have hph : coolState.phase_ = -1 := by
    unfold State.phase_
    simp only [coolState]
    rw [Complex.ofReal_one, div_one, Complex.div_I]
    simp
  have h1 : (coolState.apply_expV 1 1 coolState.get_density).density_sum
      = ∑ i, ∑ j, Complex.normSq
          (Complex.exp (coolState.phase_ * ((1 : ℝ) : ℂ) *
              ((coolState.get_Vext i j + coolState.g * coolState.get_density i j
                - coolState.mu : ℝ) : ℂ) * ((1 : ℝ) : ℂ)) *
            coolState.data i j *
            ((Real.sqrt (coolState.N_ /
                ∑ p, ∑ q, coolState.get_density p q) : ℝ) : ℂ)) :=
    Finset.sum_congr rfl fun i _ => Finset.sum_congr rfl fun j _ =>
      State.get_density_eq_normSq _ i j
  have hgd : ∀ (i : Fin 1) (j : Fin 2), coolState.get_density i j = 1 := by
    intro i j
    simp [State.get_density, coolState]
  have hVext : ∀ (i : Fin 1) (j : Fin 2),
      coolState.get_Vext i j = (j.val : ℝ) := by
    intro i j
    unfold State.get_Vext
    simp [coolState]
  have hdata : ∀ (i : Fin 1) (j : Fin 2), coolState.data i j = 1 := by
    intro i j
    simp [coolState]
  rw [h1, Fin.sum_univ_one, Fin.sum_univ_two]
  have hSum : (∑ p : Fin 1, ∑ q : Fin 2, coolState.get_density p q) = 2 := by
    rw [Fin.sum_univ_one, Fin.sum_univ_two, hgd 0 0, hgd 0 1]
    norm_num
  rw [hSum, hgd 0 0, hgd 0 1, hVext 0 0, hVext 0 1, hph, hdata 0 0, hdata 0 1]
  have hsqrt : Real.sqrt (coolState.N_ / 2) = 1 := by
    norm_num [coolState, Real.sqrt_one]
  rw [hsqrt]
  have hN2 : coolState.N_ = 2 := rfl
  rw [hN2]
  have hz0 : (-1 : ℂ) * ((1 : ℝ) : ℂ) *
      ((((0 : Fin 2).val : ℝ) + coolState.g * 1 - coolState.mu : ℝ) : ℂ) *
      ((1 : ℝ) : ℂ) = 0 := by
    norm_num [coolState]
  have hz1 : (-1 : ℂ) * ((1 : ℝ) : ℂ) *
      ((((1 : Fin 2).val : ℝ) + coolState.g * 1 - coolState.mu : ℝ) : ℂ) *
      ((1 : ℝ) : ℂ) = -1 := by
    norm_num [coolState]
  rw [hz0, hz1, Complex.exp_zero]
  have he : Complex.normSq (Complex.exp (-1 : ℂ) * 1 * ((1 : ℝ) : ℂ))
      = Real.exp (-1) * Real.exp (-1) := by
    rw [mul_one, Complex.ofReal_one, mul_one, Complex.normSq_eq_abs,
      Complex.abs_exp]
    norm_num [pow_two]
  rw [he]
  have h2 : Complex.normSq ((1 : ℂ) * 1 * ((1 : ℝ) : ℂ)) = 1 := by
    simp
  rw [h2]
  have hlt : Real.exp (-1) < 1 := Real.exp_lt_one_iff.mpr (by norm_num)
  have hpos := Real.exp_pos (-1)
  nlinarith

/-! ### C2: tracer index bug -/

/-- C2 (code bug): `get_inds` reduces the y index modulo `Nx` instead of `Ny`
(gpe.py 228: `iy = np.round((pos.imag / Ly) * Ny).astype(int) % Nx`).  At
`bugState` (`Nxy = (4, 2)`, `dx = 1`) the tracer position `0 + 1j` yields
`iy = 2`, outside `[0, Ny) = [0, 2)`, so `update_tracer_pos`'s indexing
`v_trace[ix, iy]` raises `IndexError` in numpy. -/
theorem C2_get_inds_out_of_bounds :
    (bugState.get_inds Complex.I).2 = 2 ∧
    ¬((bugState.get_inds Complex.I).2 < (2 : ℤ)) := by
  have e2 : (bugState.get_inds Complex.I).2
      = npround ((Complex.I + (((4 : ℝ) : ℂ) + Complex.I * ((2 : ℝ) : ℂ)) / 2).im
          / (2 : ℝ) * ((2 : ℕ) : ℝ)) % ((4 : ℕ) : ℤ) := rfl
  have him : (Complex.I + (((4 : ℝ) : ℂ) + Complex.I * ((2 : ℝ) : ℂ)) / 2).im = 2 := by
    simp [Complex.div_im, Complex.add_im, Complex.mul_im, Complex.normSq_apply]
    norm_num
  have harg : (2 : ℝ) / (2 : ℝ) * ((2 : ℕ) : ℝ) = 2 := by norm_num
  have hfr : Int.fract (2 : ℝ) ≠ 1 / 2 := by
    rw [Int.fract]
    norm_num
  have hnp : npround (2 : ℝ) = 2 := by
    unfold npround
    rw [if_neg hfr, round_eq]
    rw [Int.floor_eq_iff]
    norm_num
  have hval : (bugState.get_inds Complex.I).2 = 2 := by
    rw [e2, him, harg, hnp]
    decide
  exact ⟨hval, by rw [hval]; decide⟩

/-! ### C5: band-minimum Newton solver -/

lemma le_sqrt_of_sq_le {u c : ℝ} (hc : 0 ≤ c) (hu : c^2 ≤ u) : c ≤ Real.sqrt u := by
  calc c = Real.sqrt (c^2) := (Real.sqrt_sq hc).symm
    _ ≤ Real.sqrt u := Real.sqrt_le_sqrt hu

lemma sqrt_le_of_le_sq {u c : ℝ} (hc : 0 ≤ c) (h : u ≤ c^2) : Real.sqrt u ≤ c := by
  calc Real.sqrt u ≤ Real.sqrt (c^2) := Real.sqrt_le_sqrt h
    _ = c := Real.sqrt_sq hc

lemma C5stage1 (k : ℝ) (h1 : (-(1 : ℝ) / 2) ≤ k) (h2 : k ≤ (-(1 : ℝ) / 2)) :
    (-(2783177751 : ℝ) / 2500000000) ≤ (Dispersion.mk 0.05 0.5).newton k ∧
    (Dispersion.mk 0.05 0.5).newton k ≤ (-(11132710993 : ℝ) / 10000000000) := by
  have hne : (Dispersion.mk 0.05 0.5).newton k
      = k - (k - (k - 0.05) / Real.sqrt ((k - 0.05)^2 + 0.5^2))
          / (1 - 0.5^2 / (Real.sqrt ((k - 0.05)^2 + 0.5^2))^3) := rfl
  have hD1 : ((7433034373 : ℝ) / 10000000000) ≤ Real.sqrt ((k - 0.05)^2 + 0.5^2) := by
    apply le_sqrt_of_sq_le (by norm_num)
    nlinarith [mul_nonneg (sub_nonneg.mpr h2) (show (0:ℝ) ≤ 1/10 - k - (-(1 : ℝ) / 2) by linarith)]
  have hD2 : Real.sqrt ((k - 0.05)^2 + 0.5^2) ≤ ((3716517187 : ℝ) / 5000000000) := by
    apply sqrt_le_of_le_sq (by norm_num)
    nlinarith [mul_nonneg (sub_nonneg.mpr h1) (show (0:ℝ) ≤ 1/10 - k - (-(1 : ℝ) / 2) by linarith)]
  set D := Real.sqrt ((k - 0.05)^2 + 0.5^2) with hDdef
  have hD0 : (0:ℝ) < D := lt_of_lt_of_le (by norm_num) hD1
  have hD30 : (0:ℝ) < D^3 := pow_pos hD0 3
  have hD3a : ((7433034373 : ℝ) / 10000000000)^3 ≤ D^3 := pow_le_pow_left₀ (by norm_num) hD1 3
  have hD3b : D^3 ≤ ((3716517187 : ℝ) / 5000000000)^3 := pow_le_pow_left₀ hD0.le hD2 3
  have hq1 : (k - 0.05)/D ≤ ((-(1 : ℝ) / 2) - 0.05)/((3716517187 : ℝ) / 5000000000) := by
    rw [div_le_div_iff₀ hD0 (by norm_num)]
    nlinarith
  have hq2 : ((-(1 : ℝ) / 2) - 0.05)/((7433034373 : ℝ) / 10000000000) ≤ (k - 0.05)/D := by
    rw [div_le_div_iff₀ (by norm_num) hD0]
    nlinarith
  have hq3 : 0.5^2/D^3 ≤ 0.5^2/((7433034373 : ℝ) / 10000000000)^3 := by
    rw [div_le_div_iff₀ hD30 (by norm_num)]
    nlinarith
  have hq4 : 0.5^2/((3716517187 : ℝ) / 5000000000)^3 ≤ 0.5^2/D^3 := by
    rw [div_le_div_iff₀ (by norm_num) hD30]
    nlinarith
  have hE20 : (0:ℝ) < 1 - 0.5^2/D^3 := by
    have hnum : 0.5^2/((7433034373 : ℝ) / 10000000000)^3 < 1 := by norm_num
    linarith
  have hqq1 : (k - (k - 0.05)/D)/(1 - 0.5^2/D^3) ≤ ((1533177751 : ℝ) / 2500000000) := by
    rw [div_le_iff₀ hE20]
    nlinarith [hq1, hq2, hq3, hq4, h1, h2]
  have hqq2 : ((6132710993 : ℝ) / 10000000000) ≤ (k - (k - 0.05)/D)/(1 - 0.5^2/D^3) := by
    rw [le_div_iff₀ hE20]
    nlinarith [hq1, hq2, hq3, hq4, h1, h2]
  rw [hne]
  constructor
  · linarith
  · linarith


lemma C5stage2 (k : ℝ) (h1 : (-(2783177751 : ℝ) / 2500000000) ≤ k) (h2 : k ≤ (-(11132710993 : ℝ) / 10000000000)) :
    (-(2228509803 : ℝ) / 2500000000) ≤ (Dispersion.mk 0.05 0.5).newton k ∧
    (Dispersion.mk 0.05 0.5).newton k ≤ (-(4457019583 : ℝ) / 5000000000) := by
  have hne : (Dispersion.mk 0.05 0.5).newton k
      = k - (k - (k - 0.05) / Real.sqrt ((k - 0.05)^2 + 0.5^2))
          / (1 - 0.5^2 / (Real.sqrt ((k - 0.05)^2 + 0.5^2))^3) := rfl
  have hD1 : ((3165438013 : ℝ) / 2500000000) ≤ Real.sqrt ((k - 0.05)^2 + 0.5^2) := by
    apply le_sqrt_of_sq_le (by norm_num)
    nlinarith [mul_nonneg (sub_nonneg.mpr h2) (show (0:ℝ) ≤ 1/10 - k - (-(11132710993 : ℝ) / 10000000000) by linarith)]
  have hD2 : Real.sqrt ((k - 0.05)^2 + 0.5^2) ≤ ((12661752063 : ℝ) / 10000000000) := by
    apply sqrt_le_of_le_sq (by norm_num)
    nlinarith [mul_nonneg (sub_nonneg.mpr h1) (show (0:ℝ) ≤ 1/10 - k - (-(2783177751 : ℝ) / 2500000000) by linarith)]
  set D := Real.sqrt ((k - 0.05)^2 + 0.5^2) with hDdef
  have hD0 : (0:ℝ) < D := lt_of_lt_of_le (by norm_num) hD1
  have hD30 : (0:ℝ) < D^3 := pow_pos hD0 3
  have hD3a : ((3165438013 : ℝ) / 2500000000)^3 ≤ D^3 := pow_le_pow_left₀ (by norm_num) hD1 3
  have hD3b : D^3 ≤ ((12661752063 : ℝ) / 10000000000)^3 := pow_le_pow_left₀ hD0.le hD2 3
  have hq1 : (k - 0.05)/D ≤ ((-(11132710993 : ℝ) / 10000000000) - 0.05)/((12661752063 : ℝ) / 10000000000) := by
    rw [div_le_div_iff₀ hD0 (by norm_num)]
    nlinarith
  have hq2 : ((-(2783177751 : ℝ) / 2500000000) - 0.05)/((3165438013 : ℝ) / 2500000000) ≤ (k - 0.05)/D := by
    rw [div_le_div_iff₀ (by norm_num) hD0]
    nlinarith
  have hq3 : 0.5^2/D^3 ≤ 0.5^2/((3165438013 : ℝ) / 2500000000)^3 := by
    rw [div_le_div_iff₀ hD30 (by norm_num)]
    nlinarith
  have hq4 : 0.5^2/((12661752063 : ℝ) / 10000000000)^3 ≤ 0.5^2/D^3 := by
    rw [div_le_div_iff₀ (by norm_num) hD30]
    nlinarith
  have hE20 : (0:ℝ) < 1 - 0.5^2/D^3 := by
    have hnum : 0.5^2/((3165438013 : ℝ) / 2500000000)^3 < 1 := by norm_num
    linarith
  have hqq1 : (k - (k - 0.05)/D)/(1 - 0.5^2/D^3) ≤ (-(138666987 : ℝ) / 625000000) := by
    rw [div_le_iff₀ hE20]
    nlinarith [hq1, hq2, hq3, hq4, h1, h2]
  have hqq2 : (-(2218671827 : ℝ) / 10000000000) ≤ (k - (k - 0.05)/D)/(1 - 0.5^2/D^3) := by
    rw [le_div_iff₀ hE20]
    nlinarith [hq1, hq2, hq3, hq4, h1, h2]
  rw [hne]
  constructor
  · linarith
  · linarith


lemma C5stage3 (k : ℝ) (h1 : (-(2228509803 : ℝ) / 2500000000) ≤ k) (h2 : k ≤ (-(4457019583 : ℝ) / 5000000000)) :
    (-(2202547881 : ℝ) / 2500000000) ≤ (Dispersion.mk 0.05 0.5).newton k ∧
    (Dispersion.mk 0.05 0.5).newton k ≤ (-(220254783 : ℝ) / 250000000) := by
  have hne : (Dispersion.mk 0.05 0.5).newton k
      = k - (k - (k - 0.05) / Real.sqrt ((k - 0.05)^2 + 0.5^2))
          / (1 - 0.5^2 / (Real.sqrt ((k - 0.05)^2 + 0.5^2))^3) := rfl
  have hD1 : ((5329731077 : ℝ) / 5000000000) ≤ Real.sqrt ((k - 0.05)^2 + 0.5^2) := by
    apply le_sqrt_of_sq_le (by norm_num)
    nlinarith [mul_nonneg (sub_nonneg.mpr h2) (show (0:ℝ) ≤ 1/10 - k - (-(4457019583 : ℝ) / 5000000000) by linarith)]
  have hD2 : Real.sqrt ((k - 0.05)^2 + 0.5^2) ≤ ((2131892439 : ℝ) / 2000000000) := by
    apply sqrt_le_of_le_sq (by norm_num)
    nlinarith [mul_nonneg (sub_nonneg.mpr h1) (show (0:ℝ) ≤ 1/10 - k - (-(2228509803 : ℝ) / 2500000000) by linarith)]
  set D := Real.sqrt ((k - 0.05)^2 + 0.5^2) with hDdef
  have hD0 : (0:ℝ) < D := lt_of_lt_of_le (by norm_num) hD1
  have hD30 : (0:ℝ) < D^3 := pow_pos hD0 3
  have hD3a : ((5329731077 : ℝ) / 5000000000)^3 ≤ D^3 := pow_le_pow_left₀ (by norm_num) hD1 3
  have hD3b : D^3 ≤ ((2131892439 : ℝ) / 2000000000)^3 := pow_le_pow_left₀ hD0.le hD2 3
  have hq1 : (k - 0.05)/D ≤ ((-(4457019583 : ℝ) / 5000000000) - 0.05)/((2131892439 : ℝ) / 2000000000) := by
    rw [div_le_div_iff₀ hD0 (by norm_num)]
    nlinarith
  have hq2 : ((-(2228509803 : ℝ) / 2500000000) - 0.05)/((5329731077 : ℝ) / 5000000000) ≤ (k - 0.05)/D := by
    rw [div_le_div_iff₀ (by norm_num) hD0]
    nlinarith
  have hq3 : 0.5^2/D^3 ≤ 0.5^2/((5329731077 : ℝ) / 5000000000)^3 := by
    rw [div_le_div_iff₀ hD30 (by norm_num)]
    nlinarith
  have hq4 : 0.5^2/((2131892439 : ℝ) / 2000000000)^3 ≤ 0.5^2/D^3 := by
    rw [div_le_div_iff₀ (by norm_num) hD30]
    nlinarith
  have hE20 : (0:ℝ) < 1 - 0.5^2/D^3 := by
    have hnum : 0.5^2/((5329731077 : ℝ) / 5000000000)^3 < 1 := by norm_num
    linarith
  have hqq1 : (k - (k - 0.05)/D)/(1 - 0.5^2/D^3) ≤ (-(12980961 : ℝ) / 1250000000) := by
    rw [div_le_iff₀ hE20]
    nlinarith [hq1, hq2, hq3, hq4, h1, h2]
  have hqq2 : (-(51923923 : ℝ) / 5000000000) ≤ (k - (k - 0.05)/D)/(1 - 0.5^2/D^3) := by
    rw [le_div_iff₀ hE20]
    nlinarith [hq1, hq2, hq3, hq4, h1, h2]
  rw [hne]
  constructor
  · linarith
  · linarith


lemma C5stage4 (k : ℝ) (h1 : (-(2202547881 : ℝ) / 2500000000) ≤ k) (h2 : k ≤ (-(220254783 : ℝ) / 250000000)) :
    (-(8809837099 : ℝ) / 10000000000) ≤ (Dispersion.mk 0.05 0.5).newton k ∧
    (Dispersion.mk 0.05 0.5).newton k ≤ (-(8809836197 : ℝ) / 10000000000) := by
  have hne : (Dispersion.mk 0.05 0.5).newton k
      = k - (k - (k - 0.05) / Real.sqrt ((k - 0.05)^2 + 0.5^2))
          / (1 - 0.5^2 / (Real.sqrt ((k - 0.05)^2 + 0.5^2))^3) := rfl
  have hD1 : ((5283929939 : ℝ) / 5000000000) ≤ Real.sqrt ((k - 0.05)^2 + 0.5^2) := by
    apply le_sqrt_of_sq_le (by norm_num)
    nlinarith [mul_nonneg (sub_nonneg.mpr h2) (show (0:ℝ) ≤ 1/10 - k - (-(220254783 : ℝ) / 250000000) by linarith)]
  have hD2 : Real.sqrt ((k - 0.05)^2 + 0.5^2) ≤ ((10567860059 : ℝ) / 10000000000) := by
    apply sqrt_le_of_le_sq (by norm_num)
    nlinarith [mul_nonneg (sub_nonneg.mpr h1) (show (0:ℝ) ≤ 1/10 - k - (-(2202547881 : ℝ) / 2500000000) by linarith)]
  set D := Real.sqrt ((k - 0.05)^2 + 0.5^2) with hDdef
  have hD0 : (0:ℝ) < D := lt_of_lt_of_le (by norm_num) hD1
  have hD30 : (0:ℝ) < D^3 := pow_pos hD0 3
  have hD3a : ((5283929939 : ℝ) / 5000000000)^3 ≤ D^3 := pow_le_pow_left₀ (by norm_num) hD1 3
  have hD3b : D^3 ≤ ((10567860059 : ℝ) / 10000000000)^3 := pow_le_pow_left₀ hD0.le hD2 3
  have hq1 : (k - 0.05)/D ≤ ((-(220254783 : ℝ) / 250000000) - 0.05)/((10567860059 : ℝ) / 10000000000) := by
    rw [div_le_div_iff₀ hD0 (by norm_num)]
    nlinarith
  have hq2 : ((-(2202547881 : ℝ) / 2500000000) - 0.05)/((5283929939 : ℝ) / 5000000000) ≤ (k - 0.05)/D := by
    rw [div_le_div_iff₀ (by norm_num) hD0]
    nlinarith
  have hq3 : 0.5^2/D^3 ≤ 0.5^2/((5283929939 : ℝ) / 5000000000)^3 := by
    rw [div_le_div_iff₀ hD30 (by norm_num)]
    nlinarith
  have hq4 : 0.5^2/((10567860059 : ℝ) / 10000000000)^3 ≤ 0.5^2/D^3 := by
    rw [div_le_div_iff₀ (by norm_num) hD30]
    nlinarith
  have hE20 : (0:ℝ) < 1 - 0.5^2/D^3 := by
    have hnum : 0.5^2/((5283929939 : ℝ) / 5000000000)^3 < 1 := by norm_num
    linarith
  have hqq1 : (k - (k - 0.05)/D)/(1 - 0.5^2/D^3) ≤ (-(14177 : ℝ) / 400000000) := by
    rw [div_le_iff₀ hE20]
    nlinarith [hq1, hq2, hq3, hq4, h1, h2]
  have hqq2 : (-(355123 : ℝ) / 10000000000) ≤ (k - (k - 0.05)/D)/(1 - 0.5^2/D^3) := by
    rw [le_div_iff₀ hE20]
    nlinarith [hq1, hq2, hq3, hq4, h1, h2]
  rw [hne]
  constructor
  · linarith
  · linarith


lemma C5stage5 (k : ℝ) (h1 : (-(8809837099 : ℝ) / 10000000000) ≤ k) (h2 : k ≤ (-(8809836197 : ℝ) / 10000000000)) :
    (-(8809838631 : ℝ) / 10000000000) ≤ (Dispersion.mk 0.05 0.5).newton k ∧
    (Dispersion.mk 0.05 0.5).newton k ≤ (-(8809834657 : ℝ) / 10000000000) := by
  have hne : (Dispersion.mk 0.05 0.5).newton k
      = k - (k - (k - 0.05) / Real.sqrt ((k - 0.05)^2 + 0.5^2))
          / (1 - 0.5^2 / (Real.sqrt ((k - 0.05)^2 + 0.5^2))^3) := rfl
  have hD1 : ((10567547019 : ℝ) / 10000000000) ≤ Real.sqrt ((k - 0.05)^2 + 0.5^2) := by
    apply le_sqrt_of_sq_le (by norm_num)
    nlinarith [mul_nonneg (sub_nonneg.mpr h2) (show (0:ℝ) ≤ 1/10 - k - (-(8809836197 : ℝ) / 10000000000) by linarith)]
  have hD2 : Real.sqrt ((k - 0.05)^2 + 0.5^2) ≤ ((2113509563 : ℝ) / 2000000000) := by
    apply sqrt_le_of_le_sq (by norm_num)
    nlinarith [mul_nonneg (sub_nonneg.mpr h1) (show (0:ℝ) ≤ 1/10 - k - (-(8809837099 : ℝ) / 10000000000) by linarith)]
  set D := Real.sqrt ((k - 0.05)^2 + 0.5^2) with hDdef
  have hD0 : (0:ℝ) < D := lt_of_lt_of_le (by norm_num) hD1
  have hD30 : (0:ℝ) < D^3 := pow_pos hD0 3
  have hD3a : ((10567547019 : ℝ) / 10000000000)^3 ≤ D^3 := pow_le_pow_left₀ (by norm_num) hD1 3
  have hD3b : D^3 ≤ ((2113509563 : ℝ) / 2000000000)^3 := pow_le_pow_left₀ hD0.le hD2 3
  have hq1 : (k - 0.05)/D ≤ ((-(8809836197 : ℝ) / 10000000000) - 0.05)/((2113509563 : ℝ) / 2000000000) := by
    rw [div_le_div_iff₀ hD0 (by norm_num)]
    nlinarith
  have hq2 : ((-(8809837099 : ℝ) / 10000000000) - 0.05)/((10567547019 : ℝ) / 10000000000) ≤ (k - 0.05)/D := by
    rw [div_le_div_iff₀ (by norm_num) hD0]
    nlinarith
  have hq3 : 0.5^2/D^3 ≤ 0.5^2/((10567547019 : ℝ) / 10000000000)^3 := by
    rw [div_le_div_iff₀ hD30 (by norm_num)]
    nlinarith
  have hq4 : 0.5^2/((2113509563 : ℝ) / 2000000000)^3 ≤ 0.5^2/D^3 := by
    rw [div_le_div_iff₀ (by norm_num) hD30]
    nlinarith
  have hE20 : (0:ℝ) < 1 - 0.5^2/D^3 := by
    have hnum : 0.5^2/((10567547019 : ℝ) / 10000000000)^3 < 1 := by norm_num
    linarith
  have hqq1 : (k - (k - 0.05)/D)/(1 - 0.5^2/D^3) ≤ ((383 : ℝ) / 2500000000) := by
    rw [div_le_iff₀ hE20]
    nlinarith [hq1, hq2, hq3, hq4, h1, h2]
  have hqq2 : (-(77 : ℝ) / 500000000) ≤ (k - (k - 0.05)/D)/(1 - 0.5^2/D^3) := by
    rw [le_div_iff₀ hE20]
    nlinarith [hq1, hq2, hq3, hq4, h1, h2]
  rw [hne]
  constructor
  · linarith
  · linarith


lemma C5final (k : ℝ) (h1 : (-(8809838631 : ℝ) / 10000000000) ≤ k) (h2 : k ≤ (-(8809834657 : ℝ) / 10000000000)) :
    |k - (k - 0.05) / Real.sqrt ((k - 0.05)^2 + 0.5^2)| ≤ 1/1000 := by
  have hD1 : ((10567545663 : ℝ) / 10000000000) ≤ Real.sqrt ((k - 0.05)^2 + 0.5^2) := by
    apply le_sqrt_of_sq_le (by norm_num)
    nlinarith [mul_nonneg (sub_nonneg.mpr h2) (show (0:ℝ) ≤ 1/10 - k - (-(8809834657 : ℝ) / 10000000000) by linarith)]
  have hD2 : Real.sqrt ((k - 0.05)^2 + 0.5^2) ≤ ((2113509833 : ℝ) / 2000000000) := by
    apply sqrt_le_of_le_sq (by norm_num)
    nlinarith [mul_nonneg (sub_nonneg.mpr h1) (show (0:ℝ) ≤ 1/10 - k - (-(8809838631 : ℝ) / 10000000000) by linarith)]
  set D := Real.sqrt ((k - 0.05)^2 + 0.5^2) with hDdef
  have hD0 : (0:ℝ) < D := lt_of_lt_of_le (by norm_num) hD1
  have hq1 : (k - 0.05)/D ≤ ((-(8809834657 : ℝ) / 10000000000) - 0.05)/((2113509833 : ℝ) / 2000000000) := by
    rw [div_le_div_iff₀ hD0 (by norm_num)]
    nlinarith
  have hq2 : ((-(8809838631 : ℝ) / 10000000000) - 0.05)/((10567545663 : ℝ) / 10000000000) ≤ (k - 0.05)/D := by
    rw [div_le_div_iff₀ (by norm_num) hD0]
    nlinarith
  rw [abs_le]
  constructor
  · have hnum : -(1/1000 : ℝ) ≤ (-(8809838631 : ℝ) / 10000000000) - ((-(8809834657 : ℝ) / 10000000000) - 0.05)/((2113509833 : ℝ) / 2000000000) := by norm_num
    linarith
  · have hnum : (-(8809834657 : ℝ) / 10000000000) - ((-(8809838631 : ℝ) / 10000000000) - 0.05)/((10567545663 : ℝ) / 10000000000) ≤ (1/1000 : ℝ) := by norm_num
    linarith


/-- C5: `get_k0` with `N = 5` performs exactly 5 Newton iterations
`k ← k - Es(k,1)[0]/Es(k,2)[0]` on the lower branch from the seed
`-sign(d)/2` with no convergence check, and at the spin-orbit parameters the
engine uses (`soc_d = 0.05`, `soc_w = 0.5`, gpe.py 85) the first derivative
of the lower branch at the returned `k₀` is within `10⁻³` of zero. -/
theorem C5_get_k0_newton_minimum :
    (∀ P : Dispersion, P.get_k0 5 =
      P.newton (P.newton (P.newton (P.newton (P.newton (-Real.sign P.d / 2)))))) ∧
    ∃ E1 : ℝ × ℝ,
      (Dispersion.mk 0.05 0.5).Es ((Dispersion.mk 0.05 0.5).get_k0 5) 1
        = Except.ok E1 ∧ |E1.1| ≤ 1 / 1000 := by
  constructor
  · intro P
    rfl
  · have hsign : Real.sign ((Dispersion.mk 0.05 0.5).d) = 1 :=
      Real.sign_of_pos (by norm_num : (0 : ℝ) < 0.05)
    have hs1 : (-(1 : ℝ) / 2) ≤ -Real.sign (Dispersion.mk 0.05 0.5).d / 2 := by
      rw [hsign]
    have hs2 : -Real.sign (Dispersion.mk 0.05 0.5).d / 2 ≤ (-(1 : ℝ) / 2) := by
      rw [hsign]
    obtain ⟨l1, u1⟩ := C5stage1 _ hs1 hs2
    obtain ⟨l2, u2⟩ := C5stage2 _ l1 u1
    obtain ⟨l3, u3⟩ := C5stage3 _ l2 u2
    obtain ⟨l4, u4⟩ := C5stage4 _ l3 u3
    obtain ⟨l5, u5⟩ := C5stage5 _ l4 u4
    exact ⟨_, rfl, C5final _ l5 u5⟩

end

end SuperHydro
